import Mathlib

/-
  Shallow embedding of the module discovery, validation and reconciliation
  subsystem of the infotecha repository (scripts/scan-modules.js and
  scripts/validate-module.js).

  JavaScript values are modelled by the inductive type JsValue; machine
  behaviour that the scripts rely on (optional chaining, truthiness, the
  logical-or fallback operator, strict equality, template-literal
  stringification) is modelled by explicit total functions.  Network I/O and
  the local central registry are modelled by an explicit environment record;
  JSON.parse, an external builtin, is an abstract parameter of type
  String to Except String JsValue.  Console logging is pure observation in
  the scripts and is omitted.  Code that can throw is embedded in
  Except String; a caught exception becomes an error value at the catch site,
  exactly as in the source.
-/

namespace Infotecha

/-- JavaScript runtime values, as far as the scripts inspect them.  Objects
are ordered field lists (keys are unique in values produced by JSON.parse;
the embedding never constructs duplicates). -/
inductive JsValue where
  | undefined
  | null
  | bool (b : Bool)
  | num (n : Int)
  | str (s : String)
  | arr (elems : List JsValue)
  | obj (fields : List (String × JsValue))

/-- Property read on a value: objects look the key up in field order, every
other value yields undefined (the scripts never read a property that the
runtime special-cases, except length, modelled separately by jsLength). -/
def getField (v : JsValue) (k : String) : JsValue :=
  match v with
  | .obj fields => (List.lookup k fields).getD .undefined
  | _ => .undefined

/-- Optional chaining a?.k : null and undefined short-circuit to undefined,
any other base behaves as a plain property read. -/
def optChain (v : JsValue) (k : String) : JsValue :=
  match v with
  | .undefined => .undefined
  | .null => .undefined
  | _ => getField v k

/-- JavaScript truthiness (no NaN: numbers are modelled as integers, and the
scripts never produce NaN on the paths embedded here). -/
def truthy : JsValue → Bool
  | .undefined => false
  | .null => false
  | .bool b => b
  | .num n => n != 0
  | .str s => s != ""
  | .arr _ => true
  | .obj _ => true

/-- The JavaScript logical-or fallback a || b. -/
def jsOr (a b : JsValue) : JsValue :=
  if truthy a then a else b

/-- Strict equality.  Primitives compare structurally; an object or array
operand compares by reference in JavaScript, and since every comparison in
the scripts has a freshly parsed JSON value on at least one side (JSON.parse
never aliases), two object operands are never the same reference, so the
embedding soundly returns false for them. -/
def jsStrictEq : JsValue → JsValue → Bool
  | .undefined, .undefined => true
  | .null, .null => true
  | .bool a, .bool b => a == b
  | .num a, .num b => a == b
  | .str a, .str b => a == b
  | _, _ => false

mutual

/-- Template-literal stringification of a value. -/
def jsToStr : JsValue → String
  | .undefined => "undefined"
  | .null => "null"
  | .bool b => if b then "true" else "false"
  | .num n => toString n
  | .str s => s
  | .arr xs => jsListToStr xs
  | .obj _ => "[object Object]"
termination_by structural v => v

/-- Array stringification: elements joined by commas. -/
def jsListToStr : List JsValue → String
  | [] => ""
  | [x] => jsToStr x
  | x :: xs => jsToStr x ++ "," ++ jsListToStr xs
termination_by structural l => l

end

/-- The length property as read by the validator: arrays and strings have a
numeric length, every other value yields undefined. -/
def jsLength : JsValue → JsValue
  | .arr xs => .num xs.length
  | .str s => .num s.length
  | _ => .undefined

/-- Numeric less-than as used in tags.length < 3 : undefined < n is false. -/
def jsLt (a : JsValue) (n : Int) : Bool :=
  match a with
  | .num v => decide (v < n)
  | _ => false

/-- Property assignment v.k = x : on an object the key is replaced in place
when present and appended otherwise; assigning to a primitive is a silent
no-op in non-strict mode, as in the scripts. -/
def setField (v : JsValue) (k : String) (x : JsValue) : JsValue :=
  match v with
  | .obj fields =>
    if (List.lookup k fields).isSome then
      .obj (fields.map fun p => if p.1 = k then (p.1, x) else p)
    else
      .obj (fields ++ [(k, x)])
  | _ => v

/-- name.replace applied with the global dash-to-underscore regex of the
scripts. -/
def underscorify (s : String) : String :=
  String.mk (s.data.map fun c => if c = '-' then '_' else c)

/-- The repository field of convertToLegacyFormat:
deployment.repository when truthy, otherwise the template built from
moduleData.name.replace, which throws a TypeError when name is not a
string (only strings carry the replace method). -/
def legacyRepository (name drepo : JsValue) : Except String JsValue :=
  if truthy drepo then .ok drepo
  else
    match name with
    | .str s => .ok (.str ("mod_" ++ underscorify s))
    | _ => .error ("TypeError: moduleData.name.replace is not a function")

/-- ModuleScanner.convertToLegacyFormat (scan-modules.js lines 283-304),
embedded field for field.  A plain property read on null or undefined throws;
otherwise only the repository template can throw, when name is not a string
and deployment.repository is falsy (the logical-or short-circuits). -/
def convertToLegacyFormat (m : JsValue) : Except String JsValue :=
  match m with
  | .null => .error ("TypeError: Cannot read properties of null")
  | .undefined => .error ("TypeError: Cannot read properties of undefined")
  | _ =>
    match legacyRepository (getField m ("name"))
        (optChain (getField m ("deployment")) ("repository")) with
    | .error e => .error e
    | .ok repository =>
      .ok (.obj [
        ("name", getField m ("name")),
        ("title", getField m ("title")),
        ("description", getField m ("description")),
        ("subdomain", jsOr (optChain (getField m ("deployment")) ("subdomain"))
          (getField m ("name"))),
        ("repository", repository),
        ("url", jsOr (optChain (getField m ("urls")) ("production"))
          (.str ("https://" ++ jsToStr (getField m ("name")) ++ ".infotecha.ru"))),
        ("version", getField m ("version")),
        ("type", getField m ("type")),
        ("difficulty", optChain (getField m ("metadata")) ("difficulty")),
        ("estimated_time", optChain (getField m ("metadata")) ("estimated_time")),
        ("tags", jsOr (optChain (getField m ("metadata")) ("tags")) (.arr [])),
        ("lifecycle", optChain (getField m ("status")) ("lifecycle")),
        ("last_updated", optChain (getField m ("status")) ("last_updated")),
        ("hugo_config", getField m ("hugo_config"))])

/-- ScanResult, the discriminated union returned by ModuleScanner.scanModule:
success with source module.json, success with source central, or failure with
an error message. -/
inductive ScanResult where
  | okModuleJson (data : JsValue)
  | okCentral (data : JsValue)
  | failure (error : String)

/-- Success discriminator, result.success of the scripts. -/
def ScanResult.isSuccess : ScanResult → Bool
  | .failure _ => false
  | _ => true

/-- The environment a scan runs against: the repository listing returned by
the GitHub API (repository names, in API order), the module.json content of
each repository (none models both a 404 and any other fetch failure, exactly
as GitHubClient.getFileContent collapses them to null), and the central
registry entries in Object.values enumeration order (a missing, unreadable or
modules-less central file is the empty list, as loadCentralModules returns
modules: []). -/
structure Env where
  repos : List String
  files : String → Option String
  central : List JsValue

/-- The JavaScript String.startsWith test, stated over character data. -/
def jsStartsWith (s p : String) : Bool :=
  decide (s.data.take p.data.length = p.data)

/-- GitHubClient.getRepositories: the listing filtered to names with the
mod underscore prefix. -/
def getRepositories (env : Env) : List String :=
  env.repos.filter fun r => jsStartsWith r ("mod_")

/-- Scanner cache state: ModuleScanner.cache, a map from cache key to the
stored ScanResult and its insertion timestamp (milliseconds). -/
structure ScanState where
  cache : String → Option (ScanResult × Nat)

/-- A freshly constructed ModuleScanner has an empty cache. -/
def initialScanState : ScanState := ⟨fun _ => none⟩

/-- The cache TTL: 5 * 60 * 1000 milliseconds. -/
def cacheExpiry : Nat := 5 * 60 * 1000

/-- The cache read of scanModule: an entry is returned only while
now - timestamp < cacheExpiry; an expired entry behaves as absent.  (In the
script the timestamp never exceeds now; with truncated subtraction a larger
timestamp would read as 0, which matches the JavaScript comparison where the
difference is negative.) -/
def cacheLookup (st : ScanState) (now : Nat) (key : String) : Option ScanResult :=
  match st.cache key with
  | some entry => if now - entry.2 < cacheExpiry then some entry.1 else none
  | none => none

/-- Map.set on the scanner cache. -/
def cacheSet (st : ScanState) (key : String) (entry : ScanResult × Nat) : ScanState :=
  ⟨fun k => if k = key then some entry else st.cache k⟩

/-- Object.values(centralModules.modules).find(m => m.content_repo ===
moduleName): first match in enumeration order; reading content_repo off a
null or undefined element throws a TypeError, which the caller catches. -/
def findCentral : List JsValue → String → Except String (Option JsValue)
  | [], _ => .ok none
  | m :: rest, name =>
    match m with
    | .null => .error ("TypeError: Cannot read properties of null")
    | .undefined => .error ("TypeError: Cannot read properties of undefined")
    | _ =>
      if jsStrictEq (getField m ("content_repo")) (.str name) then .ok (some m)
      else findCentral rest name

/-- The central-registry fallback branch of scanModule, including the catch
that converts a thrown TypeError into a failed ScanResult. -/
def scanFallback (env : Env) (moduleName : String) : ScanResult :=
  match findCentral env.central moduleName with
  | .ok (some m) => .okCentral m
  | .ok none => .failure ("No configuration found")
  | .error e => .failure e

/-- ModuleScanner.scanModule (scan-modules.js lines 173-218), returning the
ScanResult, the updated cache state, and the number of getFileContent calls
issued (0 on a cache hit, 1 otherwise).  jsonParse models the JSON.parse
builtin; its throw on malformed content is caught by the catch block of
scanModule and returned as a failed ScanResult.  Only a successful
module.json result is written to the cache.  Empty fetched content is falsy
in the JavaScript condition and routes to the fallback. -/
def scanModule (jsonParse : String → Except String JsValue) (env : Env)
    (now : Nat) (st : ScanState) (moduleName : String) :
    ScanResult × ScanState × Nat :=
  let cacheKey := "module:" ++ moduleName
  match cacheLookup st now cacheKey with
  | some r => (r, st, 0)
  | none =>
    match env.files moduleName with
    | some content =>
      if content = "" then (scanFallback env moduleName, st, 1)
      else
        match jsonParse content with
        | .ok moduleData =>
          let result := ScanResult.okModuleJson moduleData
          (result, cacheSet st cacheKey (result, now), 1)
        | .error e => (.failure e, st, 1)
    | none => (scanFallback env moduleName, st, 1)

/-- The sequential loop of ModuleScanner.scanAllModules: one ScanResult per
repository, paired with the repository name, threading the cache and
accumulating the fetch count. -/
def scanLoop (jsonParse : String → Except String JsValue) (env : Env)
    (now : Nat) : List String → ScanState →
    List (String × ScanResult) × ScanState × Nat
  | [], st => ([], st, 0)
  | name :: rest, st =>
    let step := scanModule jsonParse env now st name
    let tail := scanLoop jsonParse env now rest step.2.1
    ((name, step.1) :: tail.1, tail.2.1, step.2.2 + tail.2.2)

/-- ModuleScanner.scanAllModules (scan-modules.js lines 223-245): lists the
mod-prefixed repositories and resolves each sequentially.  scanModule is a
total function (every throw inside it is caught there), so the loop always
yields exactly one result per repository.  The scan is modelled at a single
timestamp, as the TTL is five minutes and no claim depends on time passing
within one scan. -/
def scanAllModules (jsonParse : String → Except String JsValue) (env : Env)
    (now : Nat) (st : ScanState) :
    List (String × ScanResult) × ScanState × Nat :=
  scanLoop jsonParse env now (getRepositories env) st

/-- The assembly loop of ModuleScanner.generateUnifiedModules: successful
module.json results are converted to the legacy shape and tagged with
provenance module.json (a conversion throw propagates, aborting assembly
with that error, as in the script where generateUnifiedModules has no
try-catch); successful central results are tagged central and passed through
as-is; failed results are skipped. -/
def assembleModules : List (String × ScanResult) → Except String (List JsValue)
  | [] => .ok []
  | (_, .okModuleJson d) :: rest =>
    match convertToLegacyFormat d with
    | .error e => .error e
    | .ok legacyFormat =>
      match assembleModules rest with
      | .error e => .error e
      | .ok tail => .ok (setField legacyFormat ("_source") (.str ("module.json")) :: tail)
  | (_, .okCentral d) :: rest =>
    match assembleModules rest with
    | .error e => .error e
    | .ok tail => .ok (setField d ("_source") (.str ("central")) :: tail)
  | (_, .failure _) :: rest => assembleModules rest

/-- The unified catalog document; generated_at is modelled by the numeric
timestamp the scan ran at. -/
structure UnifiedModules where
  version : String
  generated_at : Nat
  build_system : String
  modules : List JsValue

/-- ModuleScanner.generateUnifiedModules (scan-modules.js lines 250-278):
run the scan, then assemble the catalog from the successful results. -/
def generateUnifiedModules (jsonParse : String → Except String JsValue)
    (env : Env) (now : Nat) (st : ScanState) :
    Except String (UnifiedModules × ScanState × Nat) :=
  let scan := scanAllModules jsonParse env now st
  match assembleModules scan.1 with
  | .error e => .error e
  | .ok mods =>
    .ok ({ version := "2.0", generated_at := now, build_system := "hybrid",
           modules := mods }, scan.2.1, scan.2.2)

/-- An arbitrary sequence of scanModule calls, each with its own module name
and timestamp, threading the cache state. -/
def runScans (jsonParse : String → Except String JsValue) (env : Env) :
    List (String × Nat) → ScanState → ScanState
  | [], st => st
  | (name, t) :: rest, st =>
    runScans jsonParse env rest (scanModule jsonParse env t st name).2.1

/-- Warning text of the subdomain convention check (validate-module.js
line 120). -/
def subdomainWarning (sub name : String) : String :=
  "Subdomain \"" ++ sub ++ "\" doesn\x27t match module name \"" ++ name ++ "\""

/-- Warning text of the repository naming convention check (line 126). -/
def repoWarning (repo expected : String) : String :=
  "Repository name \"" ++ repo ++ "\" doesn\x27t follow convention. Expected: \"" ++
    expected ++ "\""

/-- Warning text of the production URL convention check (line 132). -/
def urlWarning (prod expected : String) : String :=
  "Production URL \"" ++ prod ++ "\" doesn\x27t match expected format: \"" ++
    expected ++ "\""

/-- Warning text of the license check (line 137). -/
def licenseWarning : String :=
  "License not specified - consider adding one"

/-- Warning text of the Hugo version currency check (line 142). -/
def hugoWarning (v : String) : String :=
  "Hugo version " ++ v ++ " differs from current platform version 0.148.0"

/-- Warning text of the tag count check (line 147). -/
def tagsWarning : String :=
  "Consider adding more tags (3-5 recommended) for better categorization"

/-- ModuleValidator.performSemanticValidation (validate-module.js lines
115-151).  Reading a property off a null or undefined document throws; so
does name.replace when name is not a string (line 124) — the throw discards
the warnings accumulated before it, so the embedding returns the error
directly.  Otherwise the six convention checks run in order, each
contributing at most one warning. -/
def performSemanticValidation (m : JsValue) : Except String (List String) :=
  match m with
  | .null => .error ("TypeError: Cannot read properties of null")
  | .undefined => .error ("TypeError: Cannot read properties of undefined")
  | _ =>
    match getField m ("name") with
    | .str nameStr =>
      let sub := optChain (getField m ("deployment")) ("subdomain")
      let w1 := if jsStrictEq sub (.str nameStr) then []
                else [subdomainWarning (jsToStr sub) nameStr]
      let expectedRepo := "mod_" ++ underscorify nameStr
      let repo := optChain (getField m ("deployment")) ("repository")
      let w2 := if jsStrictEq repo (.str expectedRepo) then []
                else [repoWarning (jsToStr repo) expectedRepo]
      let expectedUrl := "https://" ++ nameStr ++ ".infotecha.ru"
      let prod := optChain (getField m ("urls")) ("production")
      let w3 := if jsStrictEq prod (.str expectedUrl) then []
                else [urlWarning (jsToStr prod) expectedUrl]
      let w4 := if truthy (optChain (getField m ("metadata")) ("license")) then []
                else [licenseWarning]
      let hv := optChain (getField m ("hugo_config")) ("hugo_version")
      let w5 := if truthy hv && !jsStrictEq hv (.str ("0.148.0")) then [hugoWarning (jsToStr hv)]
                else []
      let tags := optChain (getField m ("metadata")) ("tags")
      let w6 := if truthy tags && jsLt (jsLength tags) 3 then [tagsWarning]
                else []
      .ok (w1 ++ w2 ++ w3 ++ w4 ++ w5 ++ w6)
    | _ => .error ("TypeError: moduleData.name.replace is not a function")

/-- ModuleValidator.validateModule (validate-module.js lines 84-110).  The
compiled JSON-Schema validator is loaded from an external schema file and is
modelled as an abstract predicate.  On structural failure the method logs
the errors and returns false without running convention checks; on success
it runs the convention checks, logs the warnings, and returns true — an
uncaught throw inside the convention checks propagates. -/
def validateModule (validate : JsValue → Bool) (m : JsValue) : Except String Bool :=
  if validate m then
    match performSemanticValidation m with
    | .ok _ => .ok true
    | .error e => .error e
  else
    .ok false

/-- A warning is the subdomain-mismatch warning exactly when its first ten
characters read Subdomain-space (no other convention warning starts that
way). -/
def isSubdomainMismatchWarning (w : String) : Bool :=
  decide (w.data.take 10 = ("Subdomain ").data)

/-- The cache invariant of the scanner: every stored value is a successful
module.json-sourced ScanResult. -/
def cacheWF (st : ScanState) : Prop :=
  ∀ k r ts, st.cache k = some (r, ts) → ∃ d, r = ScanResult.okModuleJson d

/-- The name a successful ScanResult contributes to the catalog (failures
contribute nothing). -/
def resultName : String × ScanResult → Option JsValue
  | (_, .okModuleJson d) => some (getField d ("name"))
  | (_, .okCentral d) => some (getField d ("name"))
  | (_, .failure _) => none

/-- A JSON.parse stand-in for runs whose inputs never reach it. -/
def failParse : String → Except String JsValue :=
  fun _ => .error ("not used on this run")

/-- An organization with no repositories, no descriptor files and an empty
central registry. -/
def noneEnv : Env :=
  { repos := [], files := fun _ => none, central := [] }

/-- A small valid descriptor used in concrete runs. -/
def demoDescriptor : JsValue :=
  .obj [("name", .str ("linux-base")), ("title", .str ("Linux Base"))]

/-- An organization with a single repository carrying a descriptor file,
and a central registry entry for the same repository (exercising fallback
precedence). -/
def oneFileEnv : Env :=
  { repos := [("mod_a" : String)],
    files := fun n => if n = "mod_a" then some ("descA") else none,
    central := [.obj [("content_repo", .str ("mod_a")), ("name", .str ("central-a"))]] }

/-- A parse oracle for the concrete descriptor texts of the demo runs. -/
def goodParse : String → Except String JsValue :=
  fun s => if s = "descA" then .ok demoDescriptor else .error ("bad json")

/-- The legacy entry obtained from demoDescriptor. -/
def demoEntry : JsValue :=
  match convertToLegacyFormat demoDescriptor with
  | .ok e => e
  | .error _ => .undefined

/-- The A-B-C scenario of the specification: mod_a and mod_c carry valid
descriptors, mod_b has neither a descriptor nor a central entry. -/
def cEnvABC : Env :=
  { repos := [("mod_a" : String), ("mod_b" : String), ("mod_c" : String)],
    files := fun n =>
      if n = "mod_a" then some ("descA")
      else if n = "mod_c" then some ("descC")
      else none,
    central := [] }

/-- Descriptor of mod_c in the A-B-C scenario. -/
def descC : JsValue :=
  .obj [("name", .str ("gamma")), ("title", .str ("Gamma"))]

/-- Parse oracle for the A-B-C scenario. -/
def cParseABC : String → Except String JsValue :=
  fun s =>
    if s = "descA" then .ok demoDescriptor
    else if s = "descC" then .ok descC
    else .error ("bad json")

/-- The full catalog run for the A-B-C scenario. -/
def demoRunABC : Except String (UnifiedModules × ScanState × Nat) :=
  generateUnifiedModules cParseABC cEnvABC 0 initialScanState

/-- Catalog produced by the A-B-C scenario. -/
def catABC : UnifiedModules :=
  match demoRunABC with
  | .ok t => t.1
  | .error _ => { version := "", generated_at := 0, build_system := "", modules := [] }

/-- Final cache state of the A-B-C scenario. -/
def stABC : ScanState :=
  match demoRunABC with
  | .ok t => t.2.1
  | .error _ => initialScanState

/-- Fetch count of the A-B-C scenario. -/
def nABC : Nat :=
  match demoRunABC with
  | .ok t => t.2.2
  | .error _ => 0

/-- Two descriptors carrying the same name, hosted by two repositories. -/
def descSameA : JsValue := .obj [("name", .str ("same"))]

/-- Second descriptor with the duplicated name. -/
def descSameB : JsValue := .obj [("name", .str ("same")), ("title", .str ("B"))]

/-- Organization in which two repositories resolve to the same module name. -/
def cEnvDup : Env :=
  { repos := [("mod_a" : String), ("mod_b" : String)],
    files := fun n =>
      if n = "mod_a" then some ("dA")
      else if n = "mod_b" then some ("dB")
      else none,
    central := [] }

/-- Parse oracle for the duplicated-name scenario. -/
def cParseDup : String → Except String JsValue :=
  fun s =>
    if s = "dA" then .ok descSameA
    else if s = "dB" then .ok descSameB
    else .error ("bad json")

/-- The catalog run for the duplicated-name scenario. -/
def dupRun : Except String (UnifiedModules × ScanState × Nat) :=
  generateUnifiedModules cParseDup cEnvDup 0 initialScanState

/-- A central registry entry matching repository mod_x. -/
def centralEntryX : JsValue :=
  .obj [("content_repo", .str ("mod_x")), ("name", .str ("xray")), ("title", .str ("X"))]

/-- Environment in which mod_x has a descriptor file whose content does not
parse, while the central registry carries a matching entry. -/
def cEnvParseErr : Env :=
  { repos := [("mod_x" : String)],
    files := fun n => if n = "mod_x" then some ("oops not json") else none,
    central := [centralEntryX] }

/-- A parse oracle that rejects everything, standing for JSON.parse on
malformed text. -/
def cParseErr : String → Except String JsValue :=
  fun _ => .error ("Unexpected token o in JSON at position 0")

/-- First central entry whose content_repo is mod_d. -/
def centralDup1 : JsValue :=
  .obj [("content_repo", .str ("mod_d")), ("name", .str ("first"))]

/-- Second central entry whose content_repo is also mod_d. -/
def centralDup2 : JsValue :=
  .obj [("content_repo", .str ("mod_d")), ("name", .str ("second"))]

/-- Environment whose central registry holds two entries for mod_d. -/
def cEnvCentralDup : Env :=
  { repos := [], files := fun _ => none, central := [centralDup1, centralDup2] }

/-- Descriptor whose deployment.subdomain is present but empty. -/
def subEmptyDesc : JsValue :=
  .obj [("name", .str ("alpha")), ("deployment", .obj [("subdomain", .str (""))])]

/-- The legacy entry obtained from subEmptyDesc. -/
def convEmptyEntry : JsValue :=
  match convertToLegacyFormat subEmptyDesc with
  | .ok e => e
  | .error _ => .undefined

/-- A structurally valid descriptor whose subdomain differs from its name. -/
def mismatchDesc : JsValue :=
  .obj [("name", .str ("alpha")),
        ("deployment", .obj [("subdomain", .str ("beta")),
                             ("repository", .str ("mod_alpha"))]),
        ("urls", .obj [("production", .str ("https://alpha.infotecha.ru"))]),
        ("metadata", .obj [("license", .str ("MIT")),
                           ("tags", .arr [.str ("a"), .str ("b"), .str ("c")])]),
        ("hugo_config", .obj [("hugo_version", .str ("0.148.0"))])]

/-- An input object with no name but an explicit deployment.repository. -/
def noNameDesc : JsValue :=
  .obj [("title", .str ("t")),
        ("deployment", .obj [("repository", .str ("custom_repo"))])]

/-! Helper lemmas. -/

lemma isSub_subdomainWarning (a b : String) :
    isSubdomainMismatchWarning (subdomainWarning a b) = true := by
  have h : (subdomainWarning a b).data
      = ("Subdomain \"").data ++ (a.data ++ (("\" doesn\x27t match module name \"").data
          ++ (b.data ++ ("\"").data))) := by
    simp [subdomainWarning, String.data_append, List.append_assoc]
  simp only [isSubdomainMismatchWarning, h, decide_eq_true_eq]
  rw [List.take_append_of_le_length (by decide)]
  decide

lemma isSub_repoWarning (a b : String) :
    isSubdomainMismatchWarning (repoWarning a b) = false := by
  have h : (repoWarning a b).data
      = ("Repository name \"").data ++ (a.data
          ++ (("\" doesn\x27t follow convention. Expected: \"").data
          ++ (b.data ++ ("\"").data))) := by
    simp [repoWarning, String.data_append, List.append_assoc]
  simp only [isSubdomainMismatchWarning, h, decide_eq_false_iff_not]
  rw [List.take_append_of_le_length (by decide)]
  decide

lemma isSub_urlWarning (a b : String) :
    isSubdomainMismatchWarning (urlWarning a b) = false := by
  have h : (urlWarning a b).data
      = ("Production URL \"").data ++ (a.data
          ++ (("\" doesn\x27t match expected format: \"").data
          ++ (b.data ++ ("\"").data))) := by
    simp [urlWarning, String.data_append, List.append_assoc]
  simp only [isSubdomainMismatchWarning, h, decide_eq_false_iff_not]
  rw [List.take_append_of_le_length (by decide)]
  decide

lemma isSub_licenseWarning : isSubdomainMismatchWarning licenseWarning = false := by
  decide

lemma isSub_hugoWarning (v : String) :
    isSubdomainMismatchWarning (hugoWarning v) = false := by
  have h : (hugoWarning v).data
      = ("Hugo version ").data
          ++ (v.data ++ (" differs from current platform version 0.148.0").data) := by
    simp [hugoWarning, String.data_append, List.append_assoc]
  simp only [isSubdomainMismatchWarning, h, decide_eq_false_iff_not]
  rw [List.take_append_of_le_length (by decide)]
  decide

lemma isSub_tagsWarning : isSubdomainMismatchWarning tagsWarning = false := by
  decide

lemma countP_ite_nil_left (p : String → Bool) (c : Prop) [Decidable c] (x : String)
    (hx : p x = false) :
    List.countP p (if c then ([] : List String) else [x]) = 0 := by
  split <;> simp [hx]

lemma countP_ite_nil_right (p : String → Bool) (c : Prop) [Decidable c] (x : String)
    (hx : p x = false) :
    List.countP p (if c then [x] else ([] : List String)) = 0 := by
  split <;> simp [hx]

/-- C7: for every structurally valid descriptor (the compiled schema
validator is abstract) whose deployment.subdomain differs under strict
equality from its string name, validateModule returns true, and the
convention checks return a warning list containing exactly one
subdomain-mismatch warning; convention-check failures cannot make
validateModule return false. -/
theorem validateModule_subdomain_warning (validate : JsValue → Bool) (m : JsValue)
    (nameStr : String)
    (hval : validate m = true)
    (hname : getField m ("name") = .str nameStr)
    (hsub : jsStrictEq (optChain (getField m ("deployment")) ("subdomain"))
        (.str nameStr) = false) :
    validateModule validate m = .ok true
    ∧ ∃ ws, performSemanticValidation m = .ok ws
        ∧ ws.countP isSubdomainMismatchWarning = 1 := by
  have hobj : ∃ fs, m = JsValue.obj fs := by
    cases m <;> simp [getField] at hname
    case obj fs => exact ⟨fs, rfl⟩
  obtain ⟨fs, rfl⟩ := hobj
  have hsem : ∃ ws, performSemanticValidation (.obj fs) = .ok ws
      ∧ ws.countP isSubdomainMismatchWarning = 1 := by
    simp only [performSemanticValidation, hname]
    refine ⟨_, rfl, ?_⟩
    simp only [List.countP_append]
    rw [if_neg (by simp [hsub])]
    rw [countP_ite_nil_left _ _ _ (isSub_repoWarning _ _),
        countP_ite_nil_left _ _ _ (isSub_urlWarning _ _),
        countP_ite_nil_left _ _ _ isSub_licenseWarning,
        countP_ite_nil_right _ _ _ (isSub_hugoWarning _),
        countP_ite_nil_right _ _ _ isSub_tagsWarning]
    simp [isSub_subdomainWarning]
  obtain ⟨ws, hws, hcount⟩ := hsem
  exact ⟨by simp [validateModule, hval, hws], ws, hws, hcount⟩

/-- Witness for C7 at a concrete descriptor with subdomain beta and name
alpha. -/
theorem validateModule_subdomain_warning_witness :
    validateModule (fun _ => true) mismatchDesc = .ok true :=
  (validateModule_subdomain_warning (fun _ => true) mismatchDesc ("alpha")
    rfl rfl rfl).1

lemma lookup_append_of_none (k : String) (l1 l2 : List (String × JsValue))
    (h : List.lookup k l1 = none) :
    List.lookup k (l1 ++ l2) = List.lookup k l2 := by
  induction l1 with
  | nil => rfl
  | cons p t ih =>
    simp only [List.lookup, List.cons_append] at h ⊢
    rcases hk : (k == p.1) with _ | _
    · simp only [hk] at h ⊢; exact ih h
    · simp [hk] at h

lemma legacyRepository_ok (name drepo : JsValue)
    (h : (∃ s, name = JsValue.str s) ∨ truthy drepo = true) :
    ∃ r, legacyRepository name drepo = .ok r := by
  by_cases ht : truthy drepo
  · exact ⟨drepo, by simp [legacyRepository, ht]⟩
  · rcases h with ⟨s, rfl⟩ | h
    · exact ⟨.str ("mod_" ++ underscorify s), by simp [legacyRepository, ht]⟩
    · exact absurd h ht

/-- Structure of every successful conversion: the entry is an object whose
field list carries no provenance tag yet, whose name field is the source name
and whose subdomain field is the logical-or of deployment.subdomain and the
name. -/
lemma convertToLegacyFormat_ok_fields (m e : JsValue)
    (h : convertToLegacyFormat m = .ok e) :
    ∃ fs, e = JsValue.obj fs
      ∧ List.lookup ("_source") fs = none
      ∧ List.lookup ("name") fs = some (getField m ("name"))
      ∧ List.lookup ("subdomain") fs =
          some (jsOr (optChain (getField m ("deployment")) ("subdomain"))
            (getField m ("name"))) := by
  unfold convertToLegacyFormat at h
  split at h
  · exact Except.noConfusion h
  · exact Except.noConfusion h
  · split at h
    · exact Except.noConfusion h
    · simp only [Except.ok.injEq] at h
      exact ⟨_, h.symm, rfl, rfl, rfl⟩

lemma setField_absent (fs : List (String × JsValue)) (k : String) (v : JsValue)
    (h : List.lookup k fs = none) :
    setField (.obj fs) k v = .obj (fs ++ [(k, v)]) := by
  simp [setField, h]

lemma getField_setField_absent (fs : List (String × JsValue)) (k : String) (v : JsValue)
    (h : List.lookup k fs = none) :
    getField (setField (.obj fs) k v) k = v := by
  rw [setField_absent fs k v h]
  simp [getField, lookup_append_of_none k fs _ h, List.lookup]

lemma lookup_map_replace (fs : List (String × JsValue)) (k k2 : String) (x : JsValue)
    (hne : k2 ≠ k) :
    List.lookup k2 (fs.map fun p => if p.1 = k then (p.1, x) else p)
      = List.lookup k2 fs := by
  induction fs with
  | nil => rfl
  | cons p t ih =>
    obtain ⟨pk, pv⟩ := p
    by_cases hp : pk = k
    · subst hp
      simp only [List.map_cons, if_pos rfl]
      simp [List.lookup_cons, beq_false_of_ne hne, ih]
    · simp only [List.map_cons, if_neg hp]
      by_cases hk2 : k2 = pk
      · subst hk2; simp [List.lookup_cons]
      · simp [List.lookup_cons, beq_false_of_ne hk2, ih]

lemma lookup_append_single (fs : List (String × JsValue)) (k k2 : String) (v : JsValue)
    (hne : k2 ≠ k) :
    List.lookup k2 (fs ++ [(k, v)]) = List.lookup k2 fs := by
  induction fs with
  | nil => simp [List.lookup_cons, beq_false_of_ne hne, List.lookup]
  | cons p t ih =>
    obtain ⟨pk, pv⟩ := p
    by_cases hk2 : k2 = pk
    · subst hk2; simp [List.lookup_cons]
    · simp [List.lookup_cons, beq_false_of_ne hk2, ih]

/-- Property assignment at one key leaves every other key unchanged, on any
value. -/
lemma getField_setField_ne (d : JsValue) (k k2 : String) (v : JsValue)
    (hne : k2 ≠ k) :
    getField (setField d k v) k2 = getField d k2 := by
  cases d
  case obj fs =>
    by_cases hs : (List.lookup k fs).isSome
    · simp only [setField, if_pos hs, getField]
      rw [lookup_map_replace fs k k2 v hne]
    · simp only [setField, if_neg hs, getField]
      rw [lookup_append_single fs k k2 v hne]
  all_goals rfl

/-- C8 counterexample: converting the empty object throws a TypeError (the
repository fallback evaluates name.replace on undefined), so conversion does
not succeed on every input object. -/
theorem convertToLegacyFormat_throws_on_missing_name :
    convertToLegacyFormat (.obj []) =
      .error ("TypeError: moduleData.name.replace is not a function") := rfl

/-- C8 amended: conversion is total and yields a best-effort object entry for
every input object that is not null or undefined and either carries a string
name or a truthy deployment.repository; when name is not a string and
deployment.repository is falsy, the repository template throws. -/
theorem convertToLegacyFormat_total_amended (m : JsValue)
    (h1 : m ≠ .null) (h2 : m ≠ .undefined)
    (h3 : (∃ s, getField m ("name") = JsValue.str s)
      ∨ truthy (optChain (getField m ("deployment")) ("repository")) = true) :
    ∃ fs, convertToLegacyFormat m = .ok (.obj fs) := by
  cases m
  case null => exact absurd rfl h1
  case undefined => exact absurd rfl h2
  all_goals {
    obtain ⟨r, hr⟩ := legacyRepository_ok _ _ h3
    unfold convertToLegacyFormat
    rw [hr]
    exact ⟨_, rfl⟩ }

/-- Witness for C8 amended: an object with no name at all but an explicit
repository converts successfully. -/
theorem convertToLegacyFormat_total_amended_witness :
    ∃ fs, convertToLegacyFormat noNameDesc = .ok (.obj fs) :=
  convertToLegacyFormat_total_amended noNameDesc
    (fun h => JsValue.noConfusion h) (fun h => JsValue.noConfusion h)
    (Or.inr rfl)

/-- C9 counterexample: a descriptor whose deployment.subdomain is present
with the explicit value empty-string is not preserved — the entry derives the
name instead, because the logical-or falls back on every falsy value. -/
theorem convert_subdomain_not_preserved :
    getField (getField subEmptyDesc ("deployment")) ("subdomain") = .str ("")
    ∧ (convertToLegacyFormat subEmptyDesc).map (fun e => getField e ("subdomain"))
        = .ok (.str ("alpha")) :=
  ⟨rfl, rfl⟩

/-- C9 amended: the entry subdomain is deployment.subdomain whenever that
value is truthy, and the descriptor name whenever it is falsy (absent,
undefined, null, empty string, zero or false). -/
theorem convert_subdomain_derivation (m e : JsValue)
    (h : convertToLegacyFormat m = .ok e) :
    (truthy (optChain (getField m ("deployment")) ("subdomain")) = true →
      getField e ("subdomain") = optChain (getField m ("deployment")) ("subdomain"))
    ∧ (truthy (optChain (getField m ("deployment")) ("subdomain")) = false →
      getField e ("subdomain") = getField m ("name")) := by
  obtain ⟨fs, rfl, _, _, hsub⟩ := convertToLegacyFormat_ok_fields m e h
  constructor
  · intro ht
    show (List.lookup ("subdomain") fs).getD .undefined = _
    rw [hsub]
    show jsOr _ _ = _
    unfold jsOr
    rw [if_pos ht]
  · intro ht
    show (List.lookup ("subdomain") fs).getD .undefined = _
    rw [hsub]
    show jsOr _ _ = _
    unfold jsOr
    rw [if_neg (by simp [ht])]

/-- Witness for C9 amended at the empty-subdomain descriptor: the falsy
branch derives the name. -/
theorem convert_subdomain_derivation_witness :
    getField convEmptyEntry ("subdomain") = getField subEmptyDesc ("name") :=
  (convert_subdomain_derivation subEmptyDesc convEmptyEntry rfl).2 rfl

/-- C2 counterexample: with a descriptor file present whose content does not
parse, scanModule returns the parse failure itself — it does not consult the
central registry even though a matching central entry exists, and the error
is not the no-configuration message. -/
theorem scanModule_parse_error_not_fallback :
    (scanModule cParseErr cEnvParseErr 0 initialScanState ("mod_x")).1
        = .failure ("Unexpected token o in JSON at position 0")
    ∧ findCentral cEnvParseErr.central ("mod_x") = .ok (some centralEntryX) :=
  ⟨rfl, rfl⟩

/-- C2 amended: the central fallback is reached when the descriptor content
is absent (or empty, which is falsy); a parse error is returned as a failed
ScanResult carrying the parse message, without consulting the central
registry; and the no-configuration error arises exactly when the fallback
ran and found no match. -/
theorem scanModule_fallback_amended (jsonParse : String → Except String JsValue)
    (env : Env) (now : Nat) (st : ScanState) (name : String)
    (hmiss : cacheLookup st now ("module:" ++ name) = none) :
    (env.files name = none →
      (scanModule jsonParse env now st name).1 = scanFallback env name)
    ∧ (∀ content e, env.files name = some content → content ≠ "" →
        jsonParse content = .error e →
        (scanModule jsonParse env now st name).1 = .failure e)
    ∧ (env.files name = none → findCentral env.central name = .ok none →
        (scanModule jsonParse env now st name).1
          = .failure ("No configuration found")) := by
  refine ⟨?_, ?_, ?_⟩
  · intro hfile
    simp [scanModule, hmiss, hfile]
  · intro content e hfile hne hparse
    simp [scanModule, hmiss, hfile, hne, hparse]
  · intro hfile hnone
    simp [scanModule, hmiss, hfile, scanFallback, hnone]

/-- Witness for C2 amended: a module with no descriptor and no central match
fails with the no-configuration message. -/
theorem scanModule_fallback_amended_witness :
    (scanModule failParse noneEnv 0 initialScanState ("mod_y")).1
      = .failure ("No configuration found") :=
  (scanModule_fallback_amended failParse noneEnv 0 initialScanState ("mod_y")
    rfl).2.2 rfl rfl

/-- C4 counterexample: a module that resolves through neither the descriptor
nor the central registry is not cached, so resolving it twice within the TTL
issues two underlying fetches, not one. -/
theorem scanModule_refetch_within_ttl :
    (scanModule failParse noneEnv 0 initialScanState ("mod_m")).2.2
      + (scanModule failParse noneEnv 1
          (scanModule failParse noneEnv 0 initialScanState ("mod_m")).2.1
          ("mod_m")).2.2 = 2
    ∧ (1 : Nat) - 0 < cacheExpiry
    ∧ (scanModule failParse noneEnv 1
        (scanModule failParse noneEnv 0 initialScanState ("mod_m")).2.1
        ("mod_m")).1 = .failure ("No configuration found") :=
  ⟨rfl, by decide, rfl⟩

/-- C4 amended: when the first resolution succeeds from the module's own
descriptor, it is cached; a second resolution within the TTL returns the
cached result with no fetch (one fetch across both calls), and once the TTL
from insertion has elapsed the entry behaves as absent and a new fetch is
issued.  Fallback and failed resolutions are never cached and re-fetch on
every call. -/
theorem scanModule_cache_ttl (jsonParse : String → Except String JsValue)
    (env : Env) (now1 now2 : Nat) (st : ScanState) (name content : String)
    (d : JsValue)
    (hmiss : cacheLookup st now1 ("module:" ++ name) = none)
    (hfile : env.files name = some content)
    (hne : content ≠ "")
    (hparse : jsonParse content = .ok d) :
    scanModule jsonParse env now1 st name =
      (.okModuleJson d, cacheSet st ("module:" ++ name) (.okModuleJson d, now1), 1)
    ∧ (now2 - now1 < cacheExpiry →
        scanModule jsonParse env now2
            (cacheSet st ("module:" ++ name) (.okModuleJson d, now1)) name =
          (.okModuleJson d,
            cacheSet st ("module:" ++ name) (.okModuleJson d, now1), 0))
    ∧ (cacheExpiry ≤ now2 - now1 →
        (scanModule jsonParse env now2
            (cacheSet st ("module:" ++ name) (.okModuleJson d, now1)) name).2.2
          = 1) := by
  refine ⟨?_, ?_, ?_⟩
  · simp [scanModule, hmiss, hfile, hne, hparse]
  · intro hfresh
    have hhit : cacheLookup
        (cacheSet st ("module:" ++ name) (.okModuleJson d, now1)) now2
        ("module:" ++ name) = some (.okModuleJson d) := by
      simp [cacheLookup, cacheSet, hfresh]
    simp [scanModule, hhit]
  · intro hexp
    have hmiss2 : cacheLookup
        (cacheSet st ("module:" ++ name) (.okModuleJson d, now1)) now2
        ("module:" ++ name) = none := by
      simp [cacheLookup, cacheSet]
      omega
    simp [scanModule, hmiss2, hfile, hne, hparse]

/-- Witness for C4 amended: the second resolution of mod_a one millisecond
after a successful first resolution is a cache hit with zero fetches. -/
theorem scanModule_cache_ttl_witness :
    scanModule goodParse oneFileEnv 1
        (cacheSet initialScanState ("module:" ++ "mod_a")
          (.okModuleJson demoDescriptor, 0)) ("mod_a") =
      (.okModuleJson demoDescriptor,
        cacheSet initialScanState ("module:" ++ "mod_a")
          (.okModuleJson demoDescriptor, 0), 0) :=
  (scanModule_cache_ttl goodParse oneFileEnv 0 1 initialScanState ("mod_a")
    ("descA") demoDescriptor rfl rfl (by decide) rfl).2.1 (by decide)

lemma findCentral_first (m : JsValue) (post : List JsValue) (name : String)
    (hm : jsStrictEq (getField m ("content_repo")) (.str name) = true) :
    ∀ pre : List JsValue,
      (∀ x ∈ pre, jsStrictEq (getField x ("content_repo")) (.str name) = false
        ∧ x ≠ .null ∧ x ≠ .undefined) →
      findCentral (pre ++ m :: post) name = .ok (some m) := by
  intro pre
  induction pre with
  | nil =>
    intro _
    cases m
    case null => simp [getField, jsStrictEq] at hm
    case undefined => simp [getField, jsStrictEq] at hm
    all_goals simp [findCentral, hm]
  | cons x t ih =>
    intro hpre
    obtain ⟨hx, hxn, hxu⟩ := hpre x (by simp)
    have hrec := ih fun y hy => hpre y (List.mem_cons_of_mem x hy)
    cases x
    case null => exact absurd rfl hxn
    case undefined => exact absurd rfl hxu
    all_goals simp [findCentral, hx, hrec]

/-- C10: when the descriptor is absent and the central registry holds several
entries whose content_repo equals the module name, scanModule returns the
first match in the enumeration order of the registry list, never a later
one (the conclusion names the first match and is independent of what
follows it). -/
theorem scanModule_first_central_match (jsonParse : String → Except String JsValue)
    (env : Env) (now : Nat) (st : ScanState) (name : String)
    (pre : List JsValue) (m : JsValue) (post : List JsValue)
    (hmiss : cacheLookup st now ("module:" ++ name) = none)
    (hfile : env.files name = none)
    (hcentral : env.central = pre ++ m :: post)
    (hpre : ∀ x ∈ pre, jsStrictEq (getField x ("content_repo")) (.str name) = false
      ∧ x ≠ .null ∧ x ≠ .undefined)
    (hm : jsStrictEq (getField m ("content_repo")) (.str name) = true) :
    (scanModule jsonParse env now st name).1 = .okCentral m := by
  have hfc := findCentral_first m post name hm pre hpre
  simp [scanModule, hmiss, hfile, scanFallback, hcentral, hfc]

/-- Witness for C10: two central entries match mod_d; the first one is
returned. -/
theorem scanModule_first_central_match_witness :
    (scanModule failParse cEnvCentralDup 0 initialScanState ("mod_d")).1
      = .okCentral centralDup1 :=
  scanModule_first_central_match failParse cEnvCentralDup 0 initialScanState
    ("mod_d") [] centralDup1 [centralDup2] rfl rfl rfl
    (by intro x hx; cases hx) rfl

lemma cacheWF_initial : cacheWF initialScanState := by
  intro k r ts hk
  simp [initialScanState] at hk

lemma scanModule_cacheWF (jsonParse : String → Except String JsValue) (env : Env)
    (now : Nat) (st : ScanState) (name : String)
    (h : cacheWF st) :
    cacheWF (scanModule jsonParse env now st name).2.1 := by
  cases hc : cacheLookup st now ("module:" ++ name) with
  | some r =>
    have : (scanModule jsonParse env now st name).2.1 = st := by
      simp [scanModule, hc]
    rwa [this]
  | none =>
    cases hf : env.files name with
    | none =>
      have : (scanModule jsonParse env now st name).2.1 = st := by
        simp [scanModule, hc, hf]
      rwa [this]
    | some content =>
      by_cases hne : content = ""
      · have : (scanModule jsonParse env now st name).2.1 = st := by
          simp [scanModule, hc, hf, hne]
        rwa [this]
      · cases hp : jsonParse content with
        | error e =>
          have : (scanModule jsonParse env now st name).2.1 = st := by
            simp [scanModule, hc, hf, hne, hp]
          rwa [this]
        | ok d =>
          have hst : (scanModule jsonParse env now st name).2.1 =
              cacheSet st ("module:" ++ name) (.okModuleJson d, now) := by
            simp [scanModule, hc, hf, hne, hp]
          rw [hst]
          intro k r ts hk
          by_cases hkk : k = "module:" ++ name
          · simp [cacheSet, hkk] at hk
            exact ⟨d, hk.1.symm⟩
          · simp [cacheSet, hkk] at hk
            exact h k r ts hk

lemma runScans_cacheWF (jsonParse : String → Except String JsValue) (env : Env) :
    ∀ (calls : List (String × Nat)) (st : ScanState), cacheWF st →
      cacheWF (runScans jsonParse env calls st)
  | [], _, h => h
  | (name, t) :: rest, st, h =>
    runScans_cacheWF jsonParse env rest _
      (scanModule_cacheWF jsonParse env t st name h)

/-- C6: after any sequence of scanModule calls starting from a fresh scanner,
every entry in the cache is a successful module.json-sourced ScanResult —
central fallback results and failures are never inserted. -/
theorem runScans_cache_only_moduleJson (jsonParse : String → Except String JsValue)
    (env : Env) (calls : List (String × Nat)) :
    cacheWF (runScans jsonParse env calls initialScanState) :=
  runScans_cacheWF jsonParse env calls initialScanState cacheWF_initial

lemma scanLoop_map_fst (jsonParse : String → Except String JsValue) (env : Env)
    (now : Nat) :
    ∀ (names : List String) (st : ScanState),
      (scanLoop jsonParse env now names st).1.map Prod.fst = names
  | [], _ => rfl
  | n :: rest, st => by
    simp [scanLoop, scanLoop_map_fst jsonParse env now rest]

lemma assembleModules_ok_length :
    ∀ (l : List (String × ScanResult)) (mods : List JsValue),
      assembleModules l = .ok mods →
      mods.length = l.countP (fun p => p.2.isSuccess)
  | [], mods, h => by
    simp only [assembleModules, Except.ok.injEq] at h
    simp [← h]
  | (nm, .okModuleJson d) :: rest, mods, h => by
    simp only [assembleModules] at h
    cases hc : convertToLegacyFormat d with
    | error e => rw [hc] at h; exact Except.noConfusion h
    | ok e =>
      rw [hc] at h
      cases ha : assembleModules rest with
      | error e2 => rw [ha] at h; exact Except.noConfusion h
      | ok tail =>
        rw [ha] at h
        simp only [Except.ok.injEq] at h
        subst h
        simp [List.countP_cons, ScanResult.isSuccess,
          assembleModules_ok_length rest tail ha]
  | (nm, .okCentral d) :: rest, mods, h => by
    simp only [assembleModules] at h
    cases ha : assembleModules rest with
    | error e2 => rw [ha] at h; exact Except.noConfusion h
    | ok tail =>
      rw [ha] at h
      simp only [Except.ok.injEq] at h
      subst h
      simp [List.countP_cons, ScanResult.isSuccess,
        assembleModules_ok_length rest tail ha]
  | (nm, .failure e) :: rest, mods, h => by
    simp only [assembleModules] at h
    simp [List.countP_cons, ScanResult.isSuccess,
      assembleModules_ok_length rest mods h]

/-- C1: the organization-wide scan yields exactly one result per listed
mod-prefixed repository in listing order, regardless of individual failures
(scanModule is total, so no failure aborts the loop), and whenever catalog
assembly completes, the catalog holds exactly one entry per successful
result — the failed modules are precisely the omitted ones. -/
theorem scanAll_partial_failure (jsonParse : String → Except String JsValue)
    (env : Env) (now : Nat) (st : ScanState) (cat : UnifiedModules)
    (st2 : ScanState) (n : Nat)
    (h : generateUnifiedModules jsonParse env now st = .ok (cat, st2, n)) :
    (scanAllModules jsonParse env now st).1.map Prod.fst = getRepositories env
    ∧ cat.modules.length =
        (scanAllModules jsonParse env now st).1.countP (fun p => p.2.isSuccess) := by
  constructor
  · exact scanLoop_map_fst jsonParse env now (getRepositories env) st
  · simp only [generateUnifiedModules] at h
    cases ha : assembleModules (scanAllModules jsonParse env now st).1 with
    | error e => rw [ha] at h; exact Except.noConfusion h
    | ok mods =>
      rw [ha] at h
      simp only [Except.ok.injEq, Prod.mk.injEq] at h
      have hcat : cat.modules = mods := by rw [← h.1]
      rw [hcat]
      exact assembleModules_ok_length _ _ ha

/-- Witness for C1 at the A-B-C scenario of the specification: three listed
repositories, one failing, a catalog of two entries. -/
theorem scanAll_partial_failure_witness :
    (scanAllModules cParseABC cEnvABC 0 initialScanState).1.map Prod.fst
        = getRepositories cEnvABC
    ∧ catABC.modules.length =
        (scanAllModules cParseABC cEnvABC 0 initialScanState).1.countP
          (fun p => p.2.isSuccess) :=
  scanAll_partial_failure cParseABC cEnvABC 0 initialScanState catABC stABC nABC
    rfl

lemma convert_entry_name (d e : JsValue) (h : convertToLegacyFormat d = .ok e)
    (v : JsValue) :
    getField (setField e ("_source") v) ("name") = getField d ("name") := by
  obtain ⟨fs, rfl, _, hname, _⟩ := convertToLegacyFormat_ok_fields d e h
  rw [getField_setField_ne _ _ _ _ (by decide)]
  show (List.lookup ("name") fs).getD .undefined = _
  rw [hname]
  rfl

lemma assembleModules_ok_names :
    ∀ (l : List (String × ScanResult)) (mods : List JsValue),
      assembleModules l = .ok mods →
      mods.map (fun e => getField e ("name")) = l.filterMap resultName
  | [], mods, h => by
    simp only [assembleModules, Except.ok.injEq] at h
    simp [← h]
  | (nm, .okModuleJson d) :: rest, mods, h => by
    simp only [assembleModules] at h
    cases hc : convertToLegacyFormat d with
    | error e => rw [hc] at h; exact Except.noConfusion h
    | ok e =>
      rw [hc] at h
      cases ha : assembleModules rest with
      | error e2 => rw [ha] at h; exact Except.noConfusion h
      | ok tail =>
        rw [ha] at h
        simp only [Except.ok.injEq] at h
        subst h
        simp [List.filterMap_cons, resultName, convert_entry_name d e hc,
          assembleModules_ok_names rest tail ha]
  | (nm, .okCentral d) :: rest, mods, h => by
    simp only [assembleModules] at h
    cases ha : assembleModules rest with
    | error e2 => rw [ha] at h; exact Except.noConfusion h
    | ok tail =>
      rw [ha] at h
      simp only [Except.ok.injEq] at h
      subst h
      simp [List.filterMap_cons, resultName,
        getField_setField_ne d ("_source") ("name") (.str ("central")) (by decide),
        assembleModules_ok_names rest tail ha]
  | (nm, .failure e) :: rest, mods, h => by
    simp only [assembleModules] at h
    simp [List.filterMap_cons, resultName, assembleModules_ok_names rest mods h]

/-- C3 counterexample: two repositories whose descriptors carry the same
name pass through to the catalog unchanged — the generated name list holds
the duplicate twice, so catalog names are not pairwise distinct. -/
theorem generateUnified_duplicate_names :
    (dupRun.map fun t => t.1.modules.map fun e => getField e ("name"))
        = .ok [JsValue.str ("same"), JsValue.str ("same")]
    ∧ ¬ List.Nodup [JsValue.str ("same"), JsValue.str ("same")] :=
  ⟨rfl, by simp⟩

/-- C3 amended: the catalog name sequence equals, in order, the names of the
successfully resolved sources — no deduplication is performed, so the names
are pairwise distinct exactly when the successful sources carry pairwise
distinct names. -/
theorem generateUnified_names (jsonParse : String → Except String JsValue)
    (env : Env) (now : Nat) (st : ScanState) (cat : UnifiedModules)
    (st2 : ScanState) (n : Nat)
    (h : generateUnifiedModules jsonParse env now st = .ok (cat, st2, n)) :
    (cat.modules.map fun e => getField e ("name"))
        = (scanAllModules jsonParse env now st).1.filterMap resultName
    ∧ (((scanAllModules jsonParse env now st).1.filterMap resultName).Nodup →
        (cat.modules.map fun e => getField e ("name")).Nodup) := by
  simp only [generateUnifiedModules] at h
  cases ha : assembleModules (scanAllModules jsonParse env now st).1 with
  | error e => rw [ha] at h; exact Except.noConfusion h
  | ok mods =>
    rw [ha] at h
    simp only [Except.ok.injEq, Prod.mk.injEq] at h
    have hcat : cat.modules = mods := by rw [← h.1]
    have hn := assembleModules_ok_names _ _ ha
    rw [hcat, hn]
    exact ⟨rfl, id⟩

/-- Witness for C3 amended at the A-B-C scenario. -/
theorem generateUnified_names_witness :
    catABC.modules.map (fun e => getField e ("name"))
      = (scanAllModules cParseABC cEnvABC 0 initialScanState).1.filterMap
          resultName :=
  (generateUnified_names cParseABC cEnvABC 0 initialScanState catABC stABC nABC
    rfl).1

/-- C5: a repository whose descriptor is present and parses resolves from
module.json — the conclusion holds for every environment, in particular when
a matching central entry exists — and the assembled catalog entry for it
carries the provenance tag module.json. -/
theorem moduleJson_precedence (jsonParse : String → Except String JsValue)
    (env : Env) (now : Nat) (st : ScanState) (name content : String)
    (d e : JsValue)
    (hmiss : cacheLookup st now ("module:" ++ name) = none)
    (hfile : env.files name = some content)
    (hne : content ≠ "")
    (hparse : jsonParse content = .ok d)
    (hconv : convertToLegacyFormat d = .ok e) :
    (scanModule jsonParse env now st name).1 = .okModuleJson d
    ∧ (∀ rest tail, assembleModules rest = .ok tail →
        assembleModules ((name, ScanResult.okModuleJson d) :: rest)
          = .ok (setField e ("_source") (.str ("module.json")) :: tail))
    ∧ getField (setField e ("_source") (.str ("module.json"))) ("_source")
        = .str ("module.json") := by
  refine ⟨?_, ?_, ?_⟩
  · simp [scanModule, hmiss, hfile, hne, hparse]
  · intro rest tail ha
    simp [assembleModules, hconv, ha]
  · obtain ⟨fs, rfl, hsrc, _, _⟩ := convertToLegacyFormat_ok_fields d e hconv
    exact getField_setField_absent fs _ _ hsrc

/-- Witness for C5: mod_a has both a parsing descriptor and a matching
central entry; it resolves from module.json and its entry is tagged so. -/
theorem moduleJson_precedence_witness :
    (scanModule goodParse oneFileEnv 0 initialScanState ("mod_a")).1
        = .okModuleJson demoDescriptor
    ∧ getField (setField demoEntry ("_source") (.str ("module.json")))
        ("_source") = .str ("module.json") :=
  let T := moduleJson_precedence goodParse oneFileEnv 0 initialScanState
    ("mod_a") ("descA") demoDescriptor demoEntry rfl rfl (by decide) rfl rfl
  ⟨T.1, T.2.2⟩

end Infotecha
